import Mathlib

/-!
Verification of the nsjail child-spawn pipeline against its sources.

The development shallowly embeds the three source files:
* cmdline.c  — numeric gate `cmdlineIsANumber`, rlimit parsing
  `cmdlineParseRLimit`, and the per-resource multipliers used by
  `cmdlineParse`;
* net.c      — `netConnToText` and the per-IP admission check
  `netLimitConns`;
* subproc.c  — the child builder `subprocNewProc`, the roster operations
  `subprocAdd` / `subprocRemove`, the time-limit loop of `subprocReap`,
  and the parent side of `subprocRunChild`, modelled as an event trace.

External effects (results of contain*/sandbox calls, clone, pipe2, malloc,
the bytes read from the log pipe) are supplied by explicit oracle records,
so every definition stays executable.
-/

namespace Nsjail

/- ===================== cmdline.c ===================== -/

/-- Loop body of cmdline.c `cmdlineIsANumber`:
`for (int i = 0; s[i]; s++) { if (!isdigit(s[i]) && s[i] != 'x') return false; }`.
The index `i` stays fixed while the pointer `s` advances (`s.drop 1` models
`s++`); `s[i]?` is the character at offset `i` from the current pointer, and
running off the list models reaching the NUL terminator. -/
def cmdlineIsANumberLoop (i : Nat) : List Char → Bool
  | [] => true
  | c :: rest =>
    match (c :: rest)[i]? with
    | none => true
    | some d => if !(d.isDigit || d == 'x') then false else cmdlineIsANumberLoop i rest

/-- cmdline.c `cmdlineIsANumber`: the loop starts with `i = 0`. -/
def cmdlineIsANumber (s : List Char) : Bool := cmdlineIsANumberLoop 0 s

/-- A 16-byte IPv6 address (`struct in6_addr.s6_addr`), one entry of
0..255 per byte. -/
abbrev Addr := List Nat

/-- `memcmp(a, b, n) == 0` on byte arrays: the first `n` bytes agree. -/
def memcmpEq (a b : Addr) (n : Nat) : Bool := a.take n == b.take n

/-- subproc.h `struct pids_t`: one roster record per live child. -/
structure PidRecord where
  pid : Int
  start : Int
  remote_addr : Addr
  remote_txt : String
deriving DecidableEq, Repr

/-- The slice of `struct nsjconf_t` the verified code reads: the per-IP
cap, the time limit, the six namespace flags, and the roster. -/
structure NsjConf where
  max_conns_per_ip : Nat
  tlimit : Int
  clone_newnet : Bool
  clone_newuser : Bool
  clone_newns : Bool
  clone_newpid : Bool
  clone_newipc : Bool
  clone_newuts : Bool
  pids : List PidRecord
deriving DecidableEq, Repr

/-- What the kernel reports about a descriptor: whether `getsockopt`
succeeds on it (net.c `netIsSocket`), and its peer address and port when
it is a connected socket. -/
structure ConnInfo where
  isSocket : Bool
  peer : Addr
  peerPort : Nat
deriving DecidableEq, Repr

/-- Modelled from the spec: the printable form of an address produced by
libc `inet_ntop` (not part of this repository); the spec pins only a
printable "addr:port" rendering. -/
def addrPortText (a : Addr) (port : Nat) : String :=
  String.intercalate ":" (a.map toString) ++ ":" ++ toString port

/-- net.c `netConnToText` with `remote = true`, on a descriptor whose
`getpeername`/`inet_ntop` succeed when it is a socket: the text written
into `buf`, paired with the address written through `addr_or_null`. On
the non-socket path the function returns right after printing the
sentinel, before the `memcpy`, so nothing is written through
`addr_or_null` (the libc failure branches printing "[unknown]" are not
modelled). -/
def netConnToText (conn : ConnInfo) : String × Option Addr :=
  if conn.isSocket = false then ("[STANDALONE_MODE]", none)
  else (addrPortText conn.peer conn.peerPort, some conn.peer)

/-- The roster scan of net.c `netLimitConns`. The `memcmp` length is
`sizeof(*p->remote_addr.sin6_addr.s6_addr)`; `s6_addr` is an array of
`uint8_t`, so the dereferenced element has size 1: only the first byte of
the two addresses takes part in the comparison. -/
def netLimitConnsCount (addr : Addr) : List PidRecord → Nat
  | [] => 0
  | p :: rest =>
    (if memcmpEq addr p.remote_addr 1 then 1 else 0) + netLimitConnsCount addr rest

/-- net.c `netLimitConns`. `stackAddr` is the indeterminate initial
content of the local `struct sockaddr_in6 addr`, which `netConnToText`
leaves unwritten when the descriptor is not a socket. -/
def netLimitConns (conf : NsjConf) (conn : ConnInfo) (stackAddr : Addr) : Bool :=
  if conf.max_conns_per_ip == 0 then true
  else
    let addr := (netConnToText conn).2.getD stackAddr
    let cnt := netLimitConnsCount addr conf.pids
    if cnt ≥ conf.max_conns_per_ip then false else true

/- ===================== subproc.c ===================== -/

def SIGKILL : Nat := 9
def SIGCHLD : Nat := 17
def SIGCONT : Nat := 18
def CLONE_NEWNS : Nat := 0x00020000
def CLONE_NEWUTS : Nat := 0x04000000
def CLONE_NEWIPC : Nat := 0x08000000
def CLONE_NEWUSER : Nat := 0x10000000
def CLONE_NEWPID : Nat := 0x20000000
def CLONE_NEWNET : Nat := 0x40000000

/-- Results of the containment and exec calls made by `subprocNewProc`,
as reported by the contain/sandbox collaborators and the kernel. -/
structure ChildEnv where
  prepareEnvOK : Bool
  setupFDOK : Bool
  mountFSOK : Bool
  dropPrivsOK : Bool
  setLimitsOK : Bool
  makeFdsCOEOK : Bool
  sandboxApplyOK : Bool
  execveOK : Bool
deriving DecidableEq, Repr

/-- One containment step attempted by the child builder. -/
inductive Step where
  | prepareEnv | setupFD | mountFS | dropPrivs | setLimits | makeFdsCOE | applySeccomp | execAttempt
deriving DecidableEq, Repr

/-- The order in which `subprocNewProc` attempts its steps. -/
def stepOrder : List Step :=
  [.prepareEnv, .setupFD, .mountFS, .dropPrivs, .setLimits, .makeFdsCOE, .applySeccomp, .execAttempt]

/-- How the child process ends. `.returned` exists only so that the
theorems can state it never happens: the C function ends in `exit(1)`, a
successful `execve`, or `_exit(1)`. -/
inductive ChildOutcome where
  | execed
  | exited (status : Nat)
  | returned
deriving DecidableEq, Repr

/-- subproc.c `subprocNewProc`: the containment steps attempted, in
order, and the way the child ends. Every failing step exits with status
1; a failing `execve` falls through to `_exit(1)`. -/
def subprocNewProc (env : ChildEnv) : List Step × ChildOutcome :=
  if env.prepareEnvOK = false then (stepOrder.take 1, .exited 1)
  else if env.setupFDOK = false then (stepOrder.take 2, .exited 1)
  else if env.mountFSOK = false then (stepOrder.take 3, .exited 1)
  else if env.dropPrivsOK = false then (stepOrder.take 4, .exited 1)
  else if env.setLimitsOK = false then (stepOrder.take 5, .exited 1)
  else if env.makeFdsCOEOK = false then (stepOrder.take 6, .exited 1)
  else if env.sandboxApplyOK = false then (stepOrder.take 7, .exited 1)
  else if env.execveOK then (stepOrder, .execed)
  else (stepOrder, .exited 1)

/-- An observable action of the parent in `subprocRunChild`, of
`subprocAdd`/`subprocRemove`, or of the time-limit loop. -/
inductive Event where
  | pipeCreateFail
  | cloneAttempt (flags : Nat)
  | cloneFail
  | closePipeRead
  | closePipeWrite
  | netAttach (ok : Bool)
  | readChunk (len : Nat)
  | readEOF
  | allocFail
  | insertRecord (pid : Int)
  | removeRecord (pid : Int)
  | warnPidNotFound (pid : Int)
  | signalSent (sig : Nat) (pid : Int)
  | logExecMsg (pid : Int)
deriving DecidableEq, Repr

/-- subproc.c `subprocAdd`. `malloc` may fail (`allocOK = false`): the
function then returns without touching the roster. On success the new
record is inserted at the head; its `remote_addr` field keeps whatever
bytes the fresh allocation held (`garbage`) unless `netConnToText`
writes the peer address over it — which it does not when the descriptor
is not a socket. -/
def subprocAdd (roster : List PidRecord) (allocOK : Bool) (garbage : Addr)
    (pid : Int) (now : Int) (conn : ConnInfo) : List Event × List PidRecord :=
  if allocOK = false then ([.allocFail], roster)
  else
    let tx := netConnToText conn
    let rec0 : PidRecord :=
      { pid := pid, start := now, remote_addr := tx.2.getD garbage, remote_txt := tx.1 }
    ([.insertRecord pid], rec0 :: roster)

/-- subproc.c `subprocRemove`: drop the first record carrying `pid`;
when no record matches, warn about the unknown pid and leave the roster
as it is. -/
def subprocRemove : List PidRecord → Int → List Event × List PidRecord
  | [], pid => ([.warnPidNotFound pid], [])
  | p :: rest, pid =>
    if p.pid == pid then ([.removeRecord pid], rest)
    else
      let r := subprocRemove rest pid
      (r.1, p :: r.2)

/-- The `LIST_FOREACH` time-limit loop at the end of subproc.c
`subprocReap` (lines 164–182): per record, skip when `tlimit` is 0, and
when `now - start ≥ tlimit` send SIGCONT then SIGKILL. The loop body
only calls `kill` and logs; it never touches the list. -/
def enforceTimeLimitsEvents (tlimit now : Int) : List PidRecord → List Event
  | [] => []
  | p :: rest =>
    (if tlimit == 0 then []
     else if now - p.start ≥ tlimit then
       [.signalSent SIGCONT p.pid, .signalSent SIGKILL p.pid]
     else []) ++ enforceTimeLimitsEvents tlimit now rest

/-- Time-limit enforcement over the roster: the signals sent and the
roster it leaves behind. -/
def enforceTimeLimits (tlimit now : Int) (roster : List PidRecord) :
    List Event × List PidRecord :=
  (enforceTimeLimitsEvents tlimit now roster, roster)

/-- The clone flag word built at the top of `subprocRunChild`:
`SIGCHLD` OR-ed with the flag of each enabled namespace. -/
def cloneFlags (conf : NsjConf) : Nat :=
  let f1 := SIGCHLD ||| (if conf.clone_newnet then CLONE_NEWNET else 0)
  let f2 := f1 ||| (if conf.clone_newuser then CLONE_NEWUSER else 0)
  let f3 := f2 ||| (if conf.clone_newns then CLONE_NEWNS else 0)
  let f4 := f3 ||| (if conf.clone_newpid then CLONE_NEWPID else 0)
  let f5 := f4 ||| (if conf.clone_newipc then CLONE_NEWIPC else 0)
  f5 ||| (if conf.clone_newuts then CLONE_NEWUTS else 0)

/-- Results of the system calls made by the parent in `subprocRunChild`:
`pipe2`, `clone` (`none` models the −1 failure; `some pid` a success seen
from the parent — the `pid == 0` branch runs `subprocNewProc` in the
child process), the netlink attach, the sizes of the chunks read from
the log pipe before EOF, the `malloc` inside `subprocAdd` together with
the bytes its fresh allocation holds, and the indeterminate initial
bytes of the `addr` local inside `netLimitConns`. -/
structure SpawnEnv where
  pipeOK : Bool
  cloneResult : Option Int
  netIfacesOK : Bool
  logChunks : List Nat
  allocOK : Bool
  garbage : Addr
  stackAddr : Addr
deriving DecidableEq, Repr

/-- subproc.c `subprocRunChild`, parent side: the trace of observable
events and the roster it leaves behind, starting from `conf.pids`. -/
def subprocRunChild (conf : NsjConf) (conn : ConnInfo) (env : SpawnEnv) (now : Int) :
    List Event × List PidRecord :=
  if netLimitConns conf conn env.stackAddr = false then ([], conf.pids)
  else
    let flags := cloneFlags conf
    if env.pipeOK = false then ([.pipeCreateFail], conf.pids)
    else
      match env.cloneResult with
      | none =>
        ([.cloneAttempt flags, .cloneFail, .closePipeRead, .closePipeWrite], conf.pids)
      | some pid =>
        let pre := Event.cloneAttempt flags :: Event.netAttach env.netIfacesOK ::
          (env.logChunks.map Event.readChunk ++ [Event.readEOF, Event.closePipeRead])
        let ar := subprocAdd conf.pids env.allocOK env.garbage pid now conn
        (pre ++ ar.1 ++ [Event.logExecMsg pid], ar.2)

/- ===================== theorems: cmdline.c ===================== -/

/-- The loop of `cmdlineIsANumber` examines every character in turn even
though the index stays 0: advancing the pointer moves the next character
under `s[0]`. -/
theorem cmdlineIsANumberLoop_zero (s : List Char) :
    cmdlineIsANumberLoop 0 s = s.all (fun c => c.isDigit || c == 'x') := by
  induction s with
  | nil => rfl
  | cons c rest ih =>
    simp only [cmdlineIsANumberLoop, List.getElem?_cons_zero, List.all_cons]
    cases h : (c.isDigit || c == 'x') with
    | false => simp [h]
    | true => simp [h, ih]

/-- C9: `cmdlineIsANumber s` is true iff every character of `s` is a
decimal digit or the character x — so x is accepted at any position and
the empty string is accepted; despite the loop advancing the pointer
while the index stays 0, every character of `s` is examined. -/
theorem cmdlineIsANumber_digits_or_x :
    (∀ s : List Char, cmdlineIsANumber s = s.all (fun c => c.isDigit || c == 'x'))
    ∧ cmdlineIsANumber [] = true := by
  refine ⟨fun s => ?_, rfl⟩
  exact cmdlineIsANumberLoop_zero s

/-- C1 (code bug): two distinct IPv4-mapped remote addresses that agree
only on their first byte. With a cap of 1 and one roster record holding
::ffff:1.2.3.4, a connection from ::ffff:5.6.7.8 is rejected by
`netLimitConns` — the `memcmp` length `sizeof(*...s6_addr)` is 1, not 16
— although no roster record equals the new address over all 16 bytes, so
the full-address count of 0 is below the cap and the spec requires the
connection to be allowed. -/
theorem netLimitConns_compares_first_byte_only :
    let recA : PidRecord :=
      { pid := 100, start := 0,
        remote_addr := [0, 0, 0, 0, 0, 0, 0, 0, 0, 0, 255, 255, 1, 2, 3, 4],
        remote_txt := "peerA" }
    let conf : NsjConf :=
      { max_conns_per_ip := 1, tlimit := 0,
        clone_newnet := true, clone_newuser := true, clone_newns := true,
        clone_newpid := true, clone_newipc := true, clone_newuts := true,
        pids := [recA] }
    let connB : ConnInfo :=
      { isSocket := true,
        peer := [0, 0, 0, 0, 0, 0, 0, 0, 0, 0, 255, 255, 5, 6, 7, 8],
        peerPort := 2000 }
    netLimitConns conf connB [0, 0, 0, 0, 0, 0, 0, 0, 0, 0, 0, 0, 0, 0, 0, 0] = false
    ∧ connB.peer ≠ recA.remote_addr
    ∧ (conf.pids.filter (fun p => p.remote_addr == connB.peer)).length = 0
    ∧ ((conf.pids.filter (fun p => p.remote_addr == connB.peer)).length
        < conf.max_conns_per_ip) := by
  decide

/- ===================== theorems: subproc.c ===================== -/

/-- C5 (code bug): a standalone-mode `subprocAdd` (the stdio descriptor is
not a socket) stores the sentinel text, but the address bytes of the new
record are exactly the bytes the fresh allocation already held —
`netConnToText` returns before writing through `addr_or_null` and nothing
zeroes the malloc-ed record — so for an allocation holding a nonzero
byte the stored address is not zero-filled. -/
theorem subprocAdd_standalone_addr_not_zero_filled :
    let g : Addr := [1, 0, 0, 0, 0, 0, 0, 0, 0, 0, 0, 0, 0, 0, 0, 0]
    let conn : ConnInfo :=
      { isSocket := false,
        peer := [0, 0, 0, 0, 0, 0, 0, 0, 0, 0, 0, 0, 0, 0, 0, 0], peerPort := 0 }
    (subprocAdd [] true g 7 100 conn).2
      = [{ pid := 7, start := 100, remote_addr := g, remote_txt := "[STANDALONE_MODE]" }]
    ∧ g ≠ [0, 0, 0, 0, 0, 0, 0, 0, 0, 0, 0, 0, 0, 0, 0, 0]
    ∧ (subprocAdd [] true g 7 100 conn).1 = [.insertRecord 7] := by
  decide

/-- C2: the child builder attempts its steps in the fixed order
prepare-environment, setup-file-descriptors, mount-filesystem,
drop-privileges, set-resource-limits, make-fds-close-on-exec,
apply-seccomp, exec (its trace is always a prefix of `stepOrder`); it
never returns; it ends in a successful exec exactly when every step and
the exec succeed, and otherwise the child exits with status 1. -/
theorem subprocNewProc_order_and_exit :
    ∀ env : ChildEnv,
      (subprocNewProc env).2 ≠ .returned
      ∧ ((subprocNewProc env).2 = .execed ∨ (subprocNewProc env).2 = .exited 1)
      ∧ ((subprocNewProc env).1.isPrefixOf stepOrder = true)
      ∧ ((subprocNewProc env).2 = .execed ↔
          (env.prepareEnvOK && env.setupFDOK && env.mountFSOK && env.dropPrivsOK &&
           env.setLimitsOK && env.makeFdsCOEOK && env.sandboxApplyOK && env.execveOK) = true)
      ∧ ((env.prepareEnvOK && env.setupFDOK && env.mountFSOK && env.dropPrivsOK &&
           env.setLimitsOK && env.makeFdsCOEOK && env.sandboxApplyOK && env.execveOK) = false →
          (subprocNewProc env).2 = .exited 1) := by
  intro env
  obtain ⟨b1, b2, b3, b4, b5, b6, b7, b8⟩ := env
  revert b1 b2 b3 b4 b5 b6 b7 b8
  decide

/-- Witness for the C2 theorem: with every containment step succeeding
but the exec failing, the child exits with status 1. -/
theorem subprocNewProc_order_and_exit_witness :
    (subprocNewProc ⟨true, true, true, true, true, true, true, false⟩).2 = .exited 1 :=
  (subprocNewProc_order_and_exit ⟨true, true, true, true, true, true, true, false⟩).2.2.2.2
    (by decide)

/-- Is an event a roster insertion? -/
def isInsert : Event → Bool
  | .insertRecord _ => true
  | _ => false

/-- With `tlimit = 0` the time-limit loop sends nothing. -/
theorem enforceTimeLimitsEvents_zero (now : Int) :
    ∀ roster : List PidRecord, enforceTimeLimitsEvents 0 now roster = [] := by
  intro roster
  induction roster with
  | nil => rfl
  | cons p rest ih => simp [enforceTimeLimitsEvents, ih]

/-- An expired record receives SIGCONT followed by SIGKILL: the ordered
pair is a sublist of the events the loop sends. -/
theorem enforceTimeLimitsEvents_sends_pair (tlimit now : Int) (p : PidRecord) :
    ∀ roster : List PidRecord, p ∈ roster → tlimit ≠ 0 → now - p.start ≥ tlimit →
      List.Sublist [Event.signalSent SIGCONT p.pid, Event.signalSent SIGKILL p.pid]
        (enforceTimeLimitsEvents tlimit now roster) := by
  intro roster
  induction roster with
  | nil => intro hmem; cases hmem
  | cons q rest ih =>
    intro hmem h0 hd
    rcases List.mem_cons.mp hmem with hq | hq
    · subst hq
      have hb : (tlimit == 0) = false := by simp [h0]
      have hstep : enforceTimeLimitsEvents tlimit now (p :: rest)
          = [Event.signalSent SIGCONT p.pid, Event.signalSent SIGKILL p.pid]
            ++ enforceTimeLimitsEvents tlimit now rest := by
        simp [enforceTimeLimitsEvents, hb, hd]
      rw [hstep]
      exact List.sublist_append_left _ _
    · have h := ih hq h0 hd
      have hstep : enforceTimeLimitsEvents tlimit now (q :: rest)
          = (if tlimit == 0 then []
             else if now - q.start ≥ tlimit then
               [Event.signalSent SIGCONT q.pid, Event.signalSent SIGKILL q.pid]
             else []) ++ enforceTimeLimitsEvents tlimit now rest := by
        simp only [enforceTimeLimitsEvents]
      rw [hstep]
      exact h.trans (List.sublist_append_right _ _)

/-- Every signal sent by the time-limit loop targets the pid of some
roster record. -/
theorem enforceTimeLimitsEvents_signal_pid (tlimit now : Int) :
    ∀ (roster : List PidRecord) (s : Nat) (q : Int),
      Event.signalSent s q ∈ enforceTimeLimitsEvents tlimit now roster →
      q ∈ roster.map PidRecord.pid := by
  intro roster
  induction roster with
  | nil => intro s q h; cases h
  | cons p rest ih =>
    intro s q h
    simp only [enforceTimeLimitsEvents] at h
    rcases List.mem_append.mp h with h1 | h2
    · by_cases hb : (tlimit == 0) = true
      · rw [if_pos hb] at h1; cases h1
      · rw [if_neg hb] at h1
        by_cases hd : now - p.start ≥ tlimit
        · rw [if_pos hd] at h1
          simp only [List.mem_cons, List.mem_singleton, List.not_mem_nil] at h1
          rcases h1 with h1 | h1 | h1
          · rcases Event.signalSent.inj h1 with ⟨_, hq⟩
            simp [hq]
          · rcases Event.signalSent.inj h1 with ⟨_, hq⟩
            simp [hq]
          · cases h1
        · rw [if_neg hd] at h1; cases h1
    · exact List.mem_cons_of_mem _ (ih s q h2)

/-- `subprocRemove` on a pid with no roster record warns and leaves the
roster unchanged. -/
theorem subprocRemove_not_found :
    ∀ (roster : List PidRecord) (pid : Int), pid ∉ roster.map PidRecord.pid →
      subprocRemove roster pid = ([.warnPidNotFound pid], roster) := by
  intro roster
  induction roster with
  | nil => intro pid h; rfl
  | cons p rest ih =>
    intro pid h
    have hp : p.pid ≠ pid := by
      intro he
      exact h (by simp [he])
    have hb : (p.pid == pid) = false := by simp [hp]
    have hrest : pid ∉ rest.map PidRecord.pid := by
      intro hr
      exact h (List.mem_cons_of_mem _ hr)
    simp [subprocRemove, hb, ih pid hrest]

/-- If a prefix of `A ++ B` contains an event satisfying `p` while no
event of `A` does, the prefix already contains all of `A`. -/
theorem mem_take_of_any (A B : List Event) (p : Event → Bool)
    (hA : ∀ x ∈ A, p x = false) (e : Event) (he : e ∈ A) (n : Nat)
    (h : ((A ++ B).take n).any p = true) :
    e ∈ (A ++ B).take n := by
  have hlen : A.length < n := by
    by_contra hn
    push_neg at hn
    have ht : (A ++ B).take n = A.take n := by
      rw [List.take_append_eq_append_take]
      have h0 : n - A.length = 0 := Nat.sub_eq_zero_of_le hn
      simp [h0]
    rw [ht] at h
    rcases List.any_eq_true.mp h with ⟨x, hx, hpx⟩
    have hxA : x ∈ A := List.take_subset n A hx
    rw [hA x hxA] at hpx
    cases hpx
  have ht : (A ++ B).take n = A ++ B.take (n - A.length) := by
    rw [List.take_append_eq_append_take, List.take_of_length_le (le_of_lt hlen)]
  rw [ht]
  exact List.mem_append_left _ he

/-- C4: time-limit enforcement is a noop on the roster — it never adds or
removes a record; with `tlimit = 0` it sends nothing; each expired record
receives SIGCONT and then SIGKILL, in that order (the ordered pair is a
sublist of the event trace); every signal targets a roster pid; and a
repeated enforcement cycle still leaves the roster unchanged. -/
theorem enforceTimeLimits_roster_noop :
    ∀ (tlimit now : Int) (roster : List PidRecord),
      (enforceTimeLimits tlimit now roster).2 = roster
      ∧ (tlimit = 0 → (enforceTimeLimits tlimit now roster).1 = [])
      ∧ (∀ p ∈ roster, tlimit ≠ 0 → now - p.start ≥ tlimit →
          List.Sublist [Event.signalSent SIGCONT p.pid, Event.signalSent SIGKILL p.pid]
            (enforceTimeLimits tlimit now roster).1)
      ∧ (∀ p ∈ roster, tlimit ≠ 0 → now - p.start ≥ tlimit →
          Event.signalSent SIGCONT p.pid ∈ (enforceTimeLimits tlimit now roster).1
          ∧ Event.signalSent SIGKILL p.pid ∈ (enforceTimeLimits tlimit now roster).1)
      ∧ (∀ (s : Nat) (q : Int),
          Event.signalSent s q ∈ (enforceTimeLimits tlimit now roster).1 →
          q ∈ roster.map PidRecord.pid)
      ∧ (enforceTimeLimits tlimit now ((enforceTimeLimits tlimit now roster).2)).2 = roster := by
  intro tlimit now roster
  refine ⟨rfl, ?_, ?_, ?_, ?_, rfl⟩
  · intro h0
    subst h0
    exact enforceTimeLimitsEvents_zero now roster
  · intro p hp h0 hd
    exact enforceTimeLimitsEvents_sends_pair tlimit now p roster hp h0 hd
  · intro p hp h0 hd
    have h := enforceTimeLimitsEvents_sends_pair tlimit now p roster hp h0 hd
    exact ⟨h.subset (by simp), h.subset (by simp)⟩
  · intro s q h
    exact enforceTimeLimitsEvents_signal_pid tlimit now roster s q h

/-- Witness for the C4 theorem: with a zero time limit the loop over a
one-record roster sends nothing and keeps the record. -/
theorem enforceTimeLimits_roster_noop_witness :
    (enforceTimeLimits 0 5 [{ pid := 3, start := 0, remote_addr := [], remote_txt := "r" }]).1
      = [] :=
  (enforceTimeLimits_roster_noop 0 5
    [{ pid := 3, start := 0, remote_addr := [], remote_txt := "r" }]).2.1 rfl

/-- C7: the clone flag word equals SIGCHLD OR-ed with the union of
exactly the enabled namespace flags: each CLONE_NEW* bit is present in
the mask iff its namespace flag is enabled, and SIGCHLD is always
present. -/
theorem cloneFlags_sigchld_union :
    ∀ conf : NsjConf,
      cloneFlags conf =
        SIGCHLD |||
          ((if conf.clone_newnet then CLONE_NEWNET else 0) |||
           (if conf.clone_newuser then CLONE_NEWUSER else 0) |||
           (if conf.clone_newns then CLONE_NEWNS else 0) |||
           (if conf.clone_newpid then CLONE_NEWPID else 0) |||
           (if conf.clone_newipc then CLONE_NEWIPC else 0) |||
           (if conf.clone_newuts then CLONE_NEWUTS else 0))
      ∧ (cloneFlags conf &&& CLONE_NEWNET = if conf.clone_newnet then CLONE_NEWNET else 0)
      ∧ (cloneFlags conf &&& CLONE_NEWUSER = if conf.clone_newuser then CLONE_NEWUSER else 0)
      ∧ (cloneFlags conf &&& CLONE_NEWNS = if conf.clone_newns then CLONE_NEWNS else 0)
      ∧ (cloneFlags conf &&& CLONE_NEWPID = if conf.clone_newpid then CLONE_NEWPID else 0)
      ∧ (cloneFlags conf &&& CLONE_NEWIPC = if conf.clone_newipc then CLONE_NEWIPC else 0)
      ∧ (cloneFlags conf &&& CLONE_NEWUTS = if conf.clone_newuts then CLONE_NEWUTS else 0)
      ∧ (cloneFlags conf &&& SIGCHLD = SIGCHLD) := by
  intro conf
  obtain ⟨cap, tl, b1, b2, b3, b4, b5, b6, pids⟩ := conf
  dsimp only [cloneFlags]
  cases b1 <;> cases b2 <;> cases b3 <;> cases b4 <;> cases b5 <;> cases b6 <;> decide

/-- A trace whose events are all non-insertions has no insertion in any
prefix. -/
theorem no_insert_in_take (tr : List Event)
    (hno : ∀ x ∈ tr, isInsert x = false) (n : Nat)
    (h : (tr.take n).any isInsert = true) : False := by
  rcases List.any_eq_true.mp h with ⟨x, hx, hpx⟩
  rw [hno x (List.take_subset n tr hx)] at hpx
  cases hpx

/-- A prefix of an `A ++ B` trace containing an insertion, where `A` has
none, contains every event of `A`. -/
theorem insert_after_marks (tr A B : List Event) (htr : tr = A ++ B)
    (hAno : ∀ x ∈ A, isInsert x = false)
    (heof : Event.readEOF ∈ A) (hcpr : Event.closePipeRead ∈ A)
    (n : Nat) (h : (tr.take n).any isInsert = true) :
    Event.readEOF ∈ tr.take n ∧ Event.closePipeRead ∈ tr.take n := by
  subst htr
  exact ⟨mem_take_of_any A B isInsert hAno _ heof n h,
         mem_take_of_any A B isInsert hAno _ hcpr n h⟩

/-- C3: in every execution of `subprocRunChild`, any prefix of the parent
trace that already contains a roster insertion also contains the log-pipe
EOF and the close of the read end — so the ChildRecord is inserted only
after EOF was observed and the read end closed, and no earlier path
inserts anything; moreover when admission, pipe creation, clone and the
record allocation all succeed, the insertion does happen. -/
theorem childRecord_inserted_only_after_eof :
    ∀ (conf : NsjConf) (conn : ConnInfo) (env : SpawnEnv) (now : Int),
      (∀ n : Nat,
        ((subprocRunChild conf conn env now).1.take n).any isInsert = true →
          Event.readEOF ∈ (subprocRunChild conf conn env now).1.take n
          ∧ Event.closePipeRead ∈ (subprocRunChild conf conn env now).1.take n)
      ∧ (∀ pid : Int,
          netLimitConns conf conn env.stackAddr = true → env.pipeOK = true →
          env.cloneResult = some pid → env.allocOK = true →
          Event.insertRecord pid ∈ (subprocRunChild conf conn env now).1) := by
  intro conf conn env now
  constructor
  · cases hl : netLimitConns conf conn env.stackAddr with
    | false =>
      intro n h
      have htr : (subprocRunChild conf conn env now).1 = [] := by
        simp [subprocRunChild, hl]
      rw [htr] at h
      simp at h
    | true =>
      cases hp : env.pipeOK with
      | false =>
        intro n h
        have htr : (subprocRunChild conf conn env now).1 = [.pipeCreateFail] := by
          simp [subprocRunChild, hl, hp]
        rw [htr] at h
        exact absurd h (by
          intro h
          exact no_insert_in_take _ (by intro x hx; simp at hx; subst hx; rfl) n h)
      | true =>
        cases hc : env.cloneResult with
        | none =>
          intro n h
          have htr : (subprocRunChild conf conn env now).1
              = [.cloneAttempt (cloneFlags conf), .cloneFail, .closePipeRead,
                 .closePipeWrite] := by
            simp [subprocRunChild, hl, hp, hc]
          rw [htr] at h
          exact absurd h (by
            intro h
            refine no_insert_in_take _ ?_ n h
            intro x hx
            simp at hx
            rcases hx with rfl | rfl | rfl | rfl <;> rfl)
        | some pid =>
          intro n h
          have htr : (subprocRunChild conf conn env now).1
              = (Event.cloneAttempt (cloneFlags conf) :: Event.netAttach env.netIfacesOK ::
                  (env.logChunks.map Event.readChunk
                    ++ [Event.readEOF, Event.closePipeRead]))
                ++ ((subprocAdd conf.pids env.allocOK env.garbage pid now conn).1
                  ++ [Event.logExecMsg pid]) := by
            simp [subprocRunChild, hl, hp, hc, List.append_assoc]
          refine insert_after_marks _ _ _ htr ?_ (by simp) (by simp) n h
          intro x hx
          simp only [List.mem_cons, List.mem_append, List.mem_map,
            List.mem_singleton, List.not_mem_nil, or_false] at hx
          rcases hx with rfl | rfl | ⟨c, hc2, rfl⟩ | rfl | rfl <;> rfl
  · intro pid hl hp hc ha
    simp [subprocRunChild, hl, hp, hc, subprocAdd, ha]

/-- Witness for the C3 theorem: a successful spawn of pid 5 inserts its
record into the trace. -/
theorem childRecord_inserted_only_after_eof_witness :
    Event.insertRecord 5 ∈
      (subprocRunChild
        { max_conns_per_ip := 0, tlimit := 0, clone_newnet := true, clone_newuser := true,
          clone_newns := true, clone_newpid := true, clone_newipc := true,
          clone_newuts := true, pids := [] }
        { isSocket := true, peer := [], peerPort := 1 }
        { pipeOK := true, cloneResult := some 5, netIfacesOK := true, logChunks := [],
          allocOK := true, garbage := [], stackAddr := [] } 0).1 :=
  (childRecord_inserted_only_after_eof
    { max_conns_per_ip := 0, tlimit := 0, clone_newnet := true, clone_newuser := true,
      clone_newns := true, clone_newpid := true, clone_newipc := true,
      clone_newuts := true, pids := [] }
    { isSocket := true, peer := [], peerPort := 1 }
    { pipeOK := true, cloneResult := some 5, netIfacesOK := true, logChunks := [],
      allocOK := true, garbage := [], stackAddr := [] } 0).2 5 rfl rfl rfl rfl

/-- C8: when `clone` fails the parent's trace is exactly the clone
attempt, the failure report and the close of both pipe ends; the roster
is unchanged, nothing is inserted, and the net attacher is not invoked. -/
theorem spawn_clone_failure_clean :
    ∀ (conf : NsjConf) (conn : ConnInfo) (env : SpawnEnv) (now : Int),
      netLimitConns conf conn env.stackAddr = true →
      env.pipeOK = true →
      env.cloneResult = none →
      (subprocRunChild conf conn env now).1
        = [.cloneAttempt (cloneFlags conf), .cloneFail, .closePipeRead, .closePipeWrite]
      ∧ (subprocRunChild conf conn env now).2 = conf.pids
      ∧ (∀ q : Int, Event.insertRecord q ∉ (subprocRunChild conf conn env now).1)
      ∧ (∀ b : Bool, Event.netAttach b ∉ (subprocRunChild conf conn env now).1) := by
  intro conf conn env now hl hp hc
  have htr : (subprocRunChild conf conn env now).1
      = [.cloneAttempt (cloneFlags conf), .cloneFail, .closePipeRead, .closePipeWrite] := by
    simp [subprocRunChild, hl, hp, hc]
  have hro : (subprocRunChild conf conn env now).2 = conf.pids := by
    simp [subprocRunChild, hl, hp, hc]
  refine ⟨htr, hro, ?_, ?_⟩
  · intro q hq
    rw [htr] at hq
    simp at hq
  · intro b hb
    rw [htr] at hb
    simp at hb

/-- Witness for the C8 theorem: a failed clone leaves an empty roster
empty. -/
theorem spawn_clone_failure_clean_witness :
    (subprocRunChild
      { max_conns_per_ip := 0, tlimit := 0, clone_newnet := true, clone_newuser := true,
        clone_newns := true, clone_newpid := true, clone_newipc := true,
        clone_newuts := true, pids := [] }
      { isSocket := true, peer := [], peerPort := 1 }
      { pipeOK := true, cloneResult := none, netIfacesOK := true, logChunks := [],
        allocOK := true, garbage := [], stackAddr := [] } 0).2 = [] :=
  (spawn_clone_failure_clean
    { max_conns_per_ip := 0, tlimit := 0, clone_newnet := true, clone_newuser := true,
      clone_newns := true, clone_newpid := true, clone_newipc := true,
      clone_newuts := true, pids := [] }
    { isSocket := true, peer := [], peerPort := 1 }
    { pipeOK := true, cloneResult := none, netIfacesOK := true, logChunks := [],
      allocOK := true, garbage := [], stackAddr := [] } 0 rfl rfl rfl).2.1

/-- C10: when the ChildRecord allocation fails after a successful clone,
the spawn completes (clone attempted, no clone failure) but the roster is
unchanged and nothing is inserted; for a fresh pid the roster then has no
record of the live child, so its later reap warns about an unknown pid,
time-limit enforcement never signals it, and the rate limiter counts are
those of the old roster — the present-iff-spawned-and-not-reaped
invariant fails on this path. -/
theorem allocFailure_leaves_child_untracked :
    ∀ (conf : NsjConf) (conn : ConnInfo) (env : SpawnEnv) (now : Int) (pid : Int),
      netLimitConns conf conn env.stackAddr = true →
      env.pipeOK = true →
      env.cloneResult = some pid →
      env.allocOK = false →
      (subprocRunChild conf conn env now).2 = conf.pids
      ∧ Event.allocFail ∈ (subprocRunChild conf conn env now).1
      ∧ Event.cloneAttempt (cloneFlags conf) ∈ (subprocRunChild conf conn env now).1
      ∧ Event.cloneFail ∉ (subprocRunChild conf conn env now).1
      ∧ (∀ q : Int, Event.insertRecord q ∉ (subprocRunChild conf conn env now).1)
      ∧ (pid ∉ conf.pids.map PidRecord.pid →
          pid ∉ (subprocRunChild conf conn env now).2.map PidRecord.pid
          ∧ subprocRemove (subprocRunChild conf conn env now).2 pid
              = ([.warnPidNotFound pid], (subprocRunChild conf conn env now).2)
          ∧ (∀ (tl n2 : Int) (s : Nat),
              Event.signalSent s pid ∉
                (enforceTimeLimits tl n2 (subprocRunChild conf conn env now).2).1)
          ∧ netLimitConnsCount conn.peer (subprocRunChild conf conn env now).2
              = netLimitConnsCount conn.peer conf.pids) := by
  intro conf conn env now pid hl hp hc ha
  have htr : (subprocRunChild conf conn env now).1
      = (Event.cloneAttempt (cloneFlags conf) :: Event.netAttach env.netIfacesOK ::
          (env.logChunks.map Event.readChunk ++ [Event.readEOF, Event.closePipeRead]))
        ++ ([Event.allocFail] ++ [Event.logExecMsg pid]) := by
    simp [subprocRunChild, hl, hp, hc, subprocAdd, ha, List.append_assoc]
  have hro : (subprocRunChild conf conn env now).2 = conf.pids := by
    simp [subprocRunChild, hl, hp, hc, subprocAdd, ha]
  refine ⟨hro, ?_, ?_, ?_, ?_, ?_⟩
  · rw [htr]; simp
  · rw [htr]; simp
  · rw [htr]
    intro hmem
    simp at hmem
  · intro q
    rw [htr]
    intro hmem
    simp at hmem
  · intro hfresh
    rw [hro]
    refine ⟨hfresh, subprocRemove_not_found conf.pids pid hfresh, ?_, rfl⟩
    intro tl n2 s hmem
    exact hfresh (enforceTimeLimitsEvents_signal_pid tl n2 conf.pids s pid hmem)

/-- Witness for the C10 theorem: with the allocation failing after clone
returns pid 9, the parent logs the allocation failure. -/
theorem allocFailure_leaves_child_untracked_witness :
    Event.allocFail ∈
      (subprocRunChild
        { max_conns_per_ip := 0, tlimit := 0, clone_newnet := true, clone_newuser := true,
          clone_newns := true, clone_newpid := true, clone_newipc := true,
          clone_newuts := true, pids := [] }
        { isSocket := true, peer := [], peerPort := 1 }
        { pipeOK := true, cloneResult := some 9, netIfacesOK := true, logChunks := [],
          allocOK := false, garbage := [], stackAddr := [] } 0).1 :=
  (allocFailure_leaves_child_untracked
    { max_conns_per_ip := 0, tlimit := 0, clone_newnet := true, clone_newuser := true,
      clone_newns := true, clone_newpid := true, clone_newipc := true,
      clone_newuts := true, pids := [] }
    { isSocket := true, peer := [], peerPort := 1 }
    { pipeOK := true, cloneResult := some 9, netIfacesOK := true, logChunks := [],
      allocOK := false, garbage := [], stackAddr := [] } 0 9 rfl rfl rfl rfl).2.1

end Nsjail
